import Mathlib

/-!
Verification of the WHATWG MIME-sniffing implementation (`detect_content_type`
and its signature table) via a shallow embedding.  Bytes are modelled as `Nat`
(the source works on `&[u8]`), byte slices as `List Nat`, and content types as
`String`.  The MP4 box scan contains a loop whose Rust `continue` statement
skips the cursor increment; that loop is modelled with an explicit fuel
parameter so that non-termination is observable as exhaustion of every fuel.
`Option (Option String)` is a matcher outcome: `none` means the matcher does
not terminate within the given fuel, `some none` means "no match", and
`some (some ct)` means a match producing content type `ct`.
-/

/-- Sniff length: the algorithm examines at most 512 bytes (`SNIFF_LEN`). -/
def SNIFF_LEN : Nat := 512

/-- Whitespace bytes as in `is_ws`: tab, newline, form feed, carriage return, space. -/
def is_ws (b : Nat) : Bool :=
  b == 9 || b == 10 || b == 12 || b == 13 || b == 32

/-- Tag-terminating bytes as in `is_tt`: space or `>`. -/
def is_tt (b : Nat) : Bool :=
  b == 32 || b == 62

/-- Index of the first non-whitespace byte (the `while` loop in
`detect_content_type`); equals the length when every byte is whitespace. -/
def first_non_ws : List Nat → Nat
  | [] => 0
  | b :: rest => if is_ws b then first_non_ws rest + 1 else 0

/-- `data.starts_with(sig)` on byte lists (first argument is the data). -/
def startsWithBytes : List Nat → List Nat → Bool
  | _, [] => true
  | [], _ :: _ => false
  | d :: ds, p :: ps => d == p && startsWithBytes ds ps

/-- `ExactSig::sig_match`: prefix comparison, ignoring the whitespace index. -/
def exact_sig_match (sig : List Nat) (ct : String) (data : List Nat) : Option String :=
  if startsWithBytes data sig then some ct else none

/-- The index loop of `MaskedSig::sig_match`: for each i,
`data[i] & mask[i] == pat[i]`.  Arguments: pattern, mask, data. -/
def masked_loop : List Nat → List Nat → List Nat → Bool
  | [], _, _ => true
  | _ :: _, [], _ => false
  | _ :: _, _ :: _, [] => false
  | p :: ps, m :: ms, d :: ds => (Nat.land d m == p) && masked_loop ps ms ds

/-- `MaskedSig::sig_match`: optionally skip leading whitespace, require equal
pattern/mask lengths and sufficient data, then run the masked comparison. -/
def masked_sig_match (mask pat : List Nat) (sw : Bool) (ct : String)
    (data : List Nat) (fnw : Nat) : Option String :=
  if pat.length ≠ mask.length then none
  else if (if sw then data.drop fnw else data).length < pat.length then none
  else if masked_loop pat mask (if sw then data.drop fnw else data) then some ct
  else none

/-- One byte comparison of `HTMLSig::sig_match`: when the pattern byte is an
uppercase ASCII letter the data byte is masked with `0xDF` first. -/
def html_byte (b db : Nat) : Bool :=
  if 65 ≤ b && b ≤ 90 then Nat.land db 223 == b else db == b

/-- The byte loop of `HTMLSig::sig_match` (pattern, then data). -/
def html_loop : List Nat → List Nat → Bool
  | [], _ => true
  | _ :: _, [] => false
  | b :: bs, db :: ds => html_byte b db && html_loop bs ds

/-- `HTMLSig::sig_match`: skip leading whitespace, require tag length + 1
bytes, match case-insensitively, then require a tag-terminating byte. -/
def html_sig_match (h : List Nat) (data : List Nat) (fnw : Nat) : Option String :=
  if (data.drop fnw).length < h.length + 1 then none
  else if html_loop h (data.drop fnw) then
    if is_tt ((data.drop fnw).getD h.length 0) then some "text/html; charset=utf-8"
    else none
  else none

/-- `decode_big_endian_utf32`: big-endian 32-bit decode of the first 4 bytes. -/
def decode_big_endian_utf32 (b : List Nat) : Nat :=
  Nat.lor (Nat.lor (Nat.lor (b.getD 3 0) (Nat.shiftLeft (b.getD 2 0) 8))
    (Nat.shiftLeft (b.getD 1 0) 16)) (Nat.shiftLeft (b.getD 0 0) 24)

/-- The `while st < box_size` loop of `MP4Sig::sig_match`, with fuel.  The
source's `continue` at `st == 12` re-enters the loop with `st` unchanged
(the increment `st += 4` is skipped), which the recursion mirrors exactly. -/
def mp4_loop (data : List Nat) (box_size : Nat) : Nat → Nat → Option (Option String)
  | 0, _ => none
  | fuel + 1, st =>
    if st < box_size then
      if st = 12 then mp4_loop data box_size fuel st
      else if (data.drop st).take 3 = [109, 112, 52] then some (some "video/mp4")
      else mp4_loop data box_size fuel (st + 4)
    else some none

/-- The `box_size` binding of `MP4Sig::sig_match`: big-endian decode of the
first four bytes. -/
def mp4_box_size (data : List Nat) : Nat :=
  decode_big_endian_utf32 (data.take 4)

/-- `MP4Sig::sig_match`: length and box-size guards, `ftyp` check, then the
brand-field scan loop starting at offset 8. -/
def mp4_sig_match (fuel : Nat) (data : List Nat) : Option (Option String) :=
  if data.length < 12 then some none
  else if data.length < mp4_box_size data ∨ mp4_box_size data % 4 ≠ 0 then some none
  else if (data.drop 4).take 4 ≠ [102, 116, 121, 112] then some none
  else mp4_loop data (mp4_box_size data) fuel 8

/-- A byte in the binary-control set rejected by `TextSig::sig_match`. -/
def isBinaryByte (b : Nat) : Bool :=
  b ≤ 8 || b == 11 || (14 ≤ b && b ≤ 26) || (28 ≤ b && b ≤ 31)

/-- `TextSig::sig_match`: after skipping leading whitespace, match unless some
byte lies in the binary-control set. -/
def text_sig_match (data : List Nat) (fnw : Nat) : Option String :=
  if (data.drop fnw).all (fun b => !isBinaryByte b) then
    some "text/plain; charset=utf-8"
  else none

/-- The tagged signature variants of the table (`enum SniffSig`). -/
inductive SniffSig where
  | exact (sig : List Nat) (ct : String)
  | masked (mask pat : List Nat) (sw : Bool) (ct : String)
  | html (h : List Nat)
  | mp4
  | text
deriving DecidableEq

/-- The content type a signature entry can produce on a successful match. -/
def SniffSig.ctOf : SniffSig → String
  | .exact _ ct => ct
  | .masked _ _ _ ct => ct
  | .html _ => "text/html; charset=utf-8"
  | .mp4 => "video/mp4"
  | .text => "text/plain; charset=utf-8"

/-- `SniffSig::sig_match` dispatch.  Only the MP4 matcher consumes fuel; every
other matcher always terminates, hence always produces `some _`. -/
def SniffSig.sig_match (fuel : Nat) (s : SniffSig) (data : List Nat) (fnw : Nat) :
    Option (Option String) :=
  match s with
  | .exact sig ct => some (exact_sig_match sig ct data)
  | .masked mask pat sw ct => some (masked_sig_match mask pat sw ct data fnw)
  | .html h => some (html_sig_match h data fnw)
  | .mp4 => mp4_sig_match fuel data
  | .text => some (text_sig_match data fnw)

/-- The 17 HTML tag openers, in table order. -/
def htmlPats : List (List Nat) :=
  [[60, 33, 68, 79, 67, 84, 89, 80, 69, 32, 72, 84, 77, 76],
   [60, 72, 84, 77, 76],
   [60, 72, 69, 65, 68],
   [60, 83, 67, 82, 73, 80, 84],
   [60, 73, 70, 82, 65, 77, 69],
   [60, 72, 49],
   [60, 68, 73, 86],
   [60, 70, 79, 78, 84],
   [60, 84, 65, 66, 76, 69],
   [60, 65],
   [60, 83, 84, 89, 76, 69],
   [60, 84, 73, 84, 76, 69],
   [60, 66],
   [60, 66, 79, 68, 89],
   [60, 66, 82],
   [60, 80],
   [60, 33, 45, 45]]

/-- The table entries after the HTML block, in source order. -/
def SNIFF_REST : List SniffSig :=
  [.masked [255, 255, 255, 255, 255] [60, 63, 120, 109, 108] true "text/xml; charset=utf-8",
   .exact [37, 80, 68, 70, 45] "application/pdf",
   .exact [37, 33, 80, 83, 45, 65, 100, 111, 98, 101, 45] "application/postsript",
   .masked [255, 255, 0, 0] [254, 255, 0, 0] false "text/plain; charset=utf-16be",
   .masked [255, 255, 0, 0] [255, 254, 0, 0] false "text/plain; charset=utf-16le",
   .masked [255, 255, 255, 0] [239, 187, 191, 0] false "text/plain; charset=utf-8",
   .exact [0, 0, 1, 0] "image/x-icon",
   .exact [0, 0, 2, 0] "image/x-icon",
   .exact [66, 77] "image/bmp",
   .exact [71, 73, 70, 56, 55, 97] "image/gif",
   .exact [71, 73, 70, 56, 57, 97] "image/gif",
   .masked [255, 255, 255, 255, 0, 0, 0, 0, 255, 255, 255, 255, 255, 255]
     [82, 73, 70, 70, 0, 0, 0, 0, 87, 69, 66, 80, 86, 80] false "image/webp",
   .exact [137, 80, 78, 71, 13, 10, 26, 10] "image/png",
   .exact [255, 216, 255] "image/jpeg",
   .masked [255, 255, 255, 255] [46, 115, 110, 100] false "audio/basic",
   .masked [255, 255, 255, 255, 0, 0, 0, 0, 255, 255, 255, 255]
     [70, 79, 82, 77, 0, 0, 0, 0, 65, 73, 70, 70] false "audio/aiff",
   .masked [255, 255, 255] [73, 68, 51] false "audio/mpeg",
   .masked [255, 255, 255, 255, 255] [79, 103, 103, 83, 0] false "application/ogg",
   .masked [255, 255, 255, 255, 255, 255, 255, 255]
     [77, 84, 104, 100, 0, 0, 0, 6] false "audio/midi",
   .masked [255, 255, 255, 255, 0, 0, 0, 0, 255, 255, 255, 255]
     [82, 73, 70, 70, 0, 0, 0, 0, 65, 86, 73, 32] false "video/avi",
   .masked [255, 255, 255, 255, 0, 0, 0, 0, 255, 255, 255, 255]
     [82, 73, 70, 70, 0, 0, 0, 0, 87, 65, 86, 69] false "audio/wave",
   .mp4,
   .exact [26, 69, 223, 163] "video/webm",
   .masked (List.replicate 34 0 ++ [255, 255]) (List.replicate 34 0 ++ [76, 80])
     false "application/vnd.ms-fontobject",
   .exact [0, 1, 0, 0] "font/ttf",
   .exact [79, 84, 84, 79] "font/otf",
   .exact [116, 116, 99, 102] "font/collection",
   .exact [119, 79, 70, 70] "font/woff",
   .exact [119, 79, 70, 50] "font/woff2",
   .exact [31, 139, 8] "application/x-gzip",
   .exact [80, 75, 3, 4] "application/zip",
   .exact [82, 97, 114, 33, 26, 7, 0] "application/x-rar-compressed",
   .exact [82, 97, 114, 33, 26, 7, 1, 0] "application/x-rar-compressed",
   .exact [0, 97, 115, 109] "application/wasm",
   .text]

/-- `SNIFF_SIGNATURES`: the full ordered table of section 6. -/
def SNIFF_SIGNATURES : List SniffSig :=
  htmlPats.map SniffSig.html ++ SNIFF_REST

/-- The `for sig in SNIFF_SIGNATURES` loop of `detect_content_type`: return
the first matching entry's content type, the fallback when the table is
exhausted, and propagate divergence of a matcher. -/
def runSigs (fuel : Nat) (data : List Nat) (fnw : Nat) : List SniffSig → Option String
  | [] => some "application/octet-stream"
  | s :: rest =>
    match SniffSig.sig_match fuel s data fnw with
    | none => none
    | some (some ct) => some ct
    | some none => runSigs fuel data fnw rest

/-- `detect_content_type`: truncate to 512 bytes, compute the first
non-whitespace index, and scan the table.  The result is `none` exactly when
the computation does not terminate within the given fuel. -/
def detect_content_type (fuel : Nat) (data : List Nat) : Option String :=
  runSigs fuel (data.take SNIFF_LEN) (first_non_ws (data.take SNIFF_LEN))
    SNIFF_SIGNATURES

/-! ### Dispatcher helper lemmas -/

theorem runSigs_skip {fuel : Nat} {s : SniffSig} {d : List Nat} {f : Nat}
    {rest : List SniffSig} (h : SniffSig.sig_match fuel s d f = some none) :
    runSigs fuel d f (s :: rest) = runSigs fuel d f rest := by
  simp [runSigs, h]

theorem runSigs_hit {fuel : Nat} {s : SniffSig} {d : List Nat} {f : Nat} {ct : String}
    {rest : List SniffSig} (h : SniffSig.sig_match fuel s d f = some (some ct)) :
    runSigs fuel d f (s :: rest) = some ct := by
  simp [runSigs, h]

theorem runSigs_stuck {fuel : Nat} {s : SniffSig} {d : List Nat} {f : Nat}
    {rest : List SniffSig} (h : SniffSig.sig_match fuel s d f = none) :
    runSigs fuel d f (s :: rest) = none := by
  simp [runSigs, h]

theorem runSigs_skip_all {fuel : Nat} {d : List Nat} {f : Nat}
    {pre rest : List SniffSig}
    (h : ∀ s ∈ pre, SniffSig.sig_match fuel s d f = some none) :
    runSigs fuel d f (pre ++ rest) = runSigs fuel d f rest := by
  induction pre with
  | nil => rfl
  | cons s tl ih =>
    rw [List.cons_append, runSigs_skip (h s (List.mem_cons_self s tl)),
      ih (fun t ht => h t (List.mem_cons_of_mem s ht))]

/-- Every successful match of a table entry produces that entry's content
type. -/
theorem sig_match_ct {fuel : Nat} {s : SniffSig} {d : List Nat} {f : Nat} {ct : String}
    (h : SniffSig.sig_match fuel s d f = some (some ct)) : ct = s.ctOf := by
  cases s with
  | exact sig c =>
    simp only [SniffSig.sig_match, exact_sig_match, Option.some_inj] at h
    split at h <;> simp_all [SniffSig.ctOf]
  | masked mask pat sw c =>
    simp only [SniffSig.sig_match, masked_sig_match, Option.some_inj] at h
    repeat' split at h
    all_goals simp_all [SniffSig.ctOf]
  | html hp =>
    simp only [SniffSig.sig_match, html_sig_match, Option.some_inj] at h
    repeat' split at h
    all_goals simp_all [SniffSig.ctOf]
  | mp4 =>
    simp only [SniffSig.sig_match, mp4_sig_match] at h
    split at h
    · simp_all
    · split at h
      · simp_all
      · split at h
        · simp_all
        · -- the loop only ever produces `none`, `some none`, or video/mp4
          have hloop : ∀ fuel st, mp4_loop d (mp4_box_size d) fuel st =
              some (some ct) → ct = "video/mp4" := by
            intro fuel
            induction fuel with
            | zero => intro st h0; simp [mp4_loop] at h0
            | succ n ih =>
              intro st hst
              simp only [mp4_loop] at hst
              split at hst
              · split at hst
                · exact ih _ hst
                · split at hst
                  · simp_all
                  · exact ih _ hst
              · simp_all
          simp [SniffSig.ctOf, hloop _ _ h]
  | text =>
    simp only [SniffSig.sig_match, text_sig_match, Option.some_inj] at h
    split at h <;> simp_all [SniffSig.ctOf]

/-- Any content type produced by the table scan is either the fallback or the
content type of some entry of the scanned list. -/
theorem runSigs_output {fuel : Nat} {d : List Nat} {f : Nat} {ct : String} :
    ∀ {sigs : List SniffSig}, runSigs fuel d f sigs = some ct →
      ct = "application/octet-stream" ∨ ∃ s ∈ sigs, ct = s.ctOf := by
  intro sigs
  induction sigs with
  | nil => intro h; simp [runSigs] at h; exact Or.inl h.symm
  | cons s tl ih =>
    intro h
    simp only [runSigs] at h
    split at h
    · exact absurd h (by simp)
    · rename_i heq
      refine Or.inr ⟨s, List.mem_cons_self s tl, ?_⟩
      cases h
      exact sig_match_ct heq
    · rcases ih h with h1 | ⟨t, ht, hct⟩
      · exact Or.inl h1
      · exact Or.inr ⟨t, List.mem_cons_of_mem s ht, hct⟩

/-- The table scan yields the fallback iff every scanned entry reports
"no match", provided no entry's own content type is the fallback string. -/
theorem runSigs_octet_iff {fuel : Nat} {d : List Nat} {f : Nat} :
    ∀ {sigs : List SniffSig},
      (∀ s ∈ sigs, s.ctOf ≠ "application/octet-stream") →
      (runSigs fuel d f sigs = some "application/octet-stream" ↔
        ∀ s ∈ sigs, SniffSig.sig_match fuel s d f = some none) := by
  intro sigs
  induction sigs with
  | nil => intro _; simp [runSigs]
  | cons s tl ih =>
    intro hct
    simp only [runSigs]
    constructor
    · intro h
      split at h
      · exact absurd h (by simp)
      · rename_i heq
        exfalso
        cases h
        exact hct s (List.mem_cons_self s tl) (sig_match_ct heq).symm
      · rename_i heq
        intro t ht
        rcases List.mem_cons.mp ht with rfl | htl
        · exact heq
        · exact ((ih (fun t ht => hct t (List.mem_cons_of_mem s ht))).mp h) t htl
    · intro h
      rw [h s (List.mem_cons_self s tl)]
      exact (ih (fun t ht => hct t (List.mem_cons_of_mem s ht))).mpr
        (fun t ht => h t (List.mem_cons_of_mem s ht))

/-! ### Matcher characterization lemmas -/

/-- The HTML matcher produces either no match or the HTML content type. -/
theorem html_result (h d : List Nat) (f : Nat) :
    html_sig_match h d f = none ∨
      html_sig_match h d f = some "text/html; charset=utf-8" := by
  simp only [html_sig_match]
  repeat' split
  all_goals simp

theorem html_none_of_loop {h d : List Nat} {f : Nat}
    (hl : html_loop h (d.drop f) = false) : html_sig_match h d f = none := by
  simp only [html_sig_match, hl]
  split <;> simp

theorem exact_none_of {sig d : List Nat} {ct : String}
    (hs : startsWithBytes d sig = false) : exact_sig_match sig ct d = none := by
  simp [exact_sig_match, hs]

theorem startsWithBytes_append_self (p t : List Nat) :
    startsWithBytes (p ++ t) p = true := by
  induction p with
  | nil => cases t <;> rfl
  | cons a as ih => simp [startsWithBytes, ih]

/-- A masked signature whose first comparison fails reports no match, no
matter how the length checks resolve. -/
theorem masked_none_head {m0 p0 : Nat} {ms ps : List Nat} {sw : Bool} {ct : String}
    {data : List Nat} {fnw : Nat} {d0 : Nat} {ds : List Nat}
    (he : (if sw then data.drop fnw else data) = d0 :: ds)
    (hm : (Nat.land d0 m0 == p0) = false) :
    masked_sig_match (m0 :: ms) (p0 :: ps) sw ct data fnw = none := by
  simp only [masked_sig_match, he]
  split
  · rfl
  · split
    · rfl
    · simp [masked_loop, hm]

/-- A run of whitespace shifts the first-non-whitespace index additively. -/
theorem first_non_ws_append {ws : List Nat} (rest : List Nat)
    (h : ∀ b ∈ ws, is_ws b = true) :
    first_non_ws (ws ++ rest) = ws.length + first_non_ws rest := by
  induction ws with
  | nil => simp
  | cons b tl ih =>
    have hb : is_ws b = true := h b (List.mem_cons_self b tl)
    have ih' := ih (fun t ht => h t (List.mem_cons_of_mem b ht))
    show first_non_ws (b :: (tl ++ rest)) = (b :: tl).length + first_non_ws rest
    simp only [first_non_ws, hb, ite_true, ih', List.length_cons]
    omega

/-- The HTML matcher only looks at the data from the whitespace index on, so
prepending the skipped whitespace run changes nothing. -/
theorem html_shift (h ws rest : List Nat) (n : Nat) :
    html_sig_match h (ws ++ rest) (ws.length + n) = html_sig_match h rest n := by
  simp only [html_sig_match, List.drop_append]

/-- Skip a block of HTML entries all of which fail. -/
theorem html_block_skip {fuel : Nat} {d : List Nat} {f : Nat}
    {pats : List (List Nat)} {rest : List SniffSig}
    (h : ∀ p ∈ pats, html_sig_match p d f = none) :
    runSigs fuel d f (pats.map SniffSig.html ++ rest) = runSigs fuel d f rest := by
  refine runSigs_skip_all ?_
  intro s hs
  rcases List.mem_map.mp hs with ⟨p, hp, rfl⟩
  simp [SniffSig.sig_match, h p hp]

/-- A block of HTML entries one of which matches produces the HTML content
type, whichever entry fires first. -/
theorem html_block_hit {fuel : Nat} {d : List Nat} {f : Nat}
    {pats : List (List Nat)} {rest : List SniffSig}
    (hex : ∃ p ∈ pats, html_sig_match p d f ≠ none) :
    runSigs fuel d f (pats.map SniffSig.html ++ rest) =
      some "text/html; charset=utf-8" := by
  induction pats with
  | nil => simp at hex
  | cons p tl ih =>
    rcases html_result p d f with hnone | hsome
    · rw [List.map_cons, List.cons_append,
        runSigs_skip (by simp [SniffSig.sig_match, hnone])]
      refine ih ?_
      rcases hex with ⟨q, hq, hne⟩
      rcases List.mem_cons.mp hq with rfl | hq'
      · exact absurd hnone hne
      · exact ⟨q, hq', hne⟩
    · have hm : SniffSig.sig_match fuel (SniffSig.html p) d f =
          some (some "text/html; charset=utf-8") := by
        simp [SniffSig.sig_match, hsome]
      rw [List.map_cons, List.cons_append, runSigs_hit hm]

/-- The MP4 matcher needs no fuel to reject short inputs. -/
theorem mp4_short {fuel : Nat} {data : List Nat} (h : data.length < 12) :
    mp4_sig_match fuel data = some none := by
  simp [mp4_sig_match, h]

/-! ### Claim theorems -/

/-- C8: truncation invariance — for every input of length at least 512 and
every appended suffix, `detect_content_type` of the extended input equals
`detect_content_type` of the first 512 bytes alone; bytes at offset 512 and
beyond never influence the result. -/
theorem detect_truncation_invariant (data suffix : List Nat) (fuel : Nat)
    (h : 512 ≤ data.length) :
    detect_content_type fuel (data ++ suffix) =
      detect_content_type fuel (data.take 512) := by
  have h1 : (data ++ suffix).take SNIFF_LEN = data.take SNIFF_LEN :=
    List.take_append_of_le_length h
  have h2 : (data.take 512).take SNIFF_LEN = data.take SNIFF_LEN := by
    simp [SNIFF_LEN, List.take_take]
  simp only [detect_content_type, h1, h2]

theorem detect_truncation_invariant_witness :
    detect_content_type 1 (List.replicate 512 0 ++ [1, 2, 3]) =
      detect_content_type 1 ((List.replicate 512 0).take 512) :=
  detect_truncation_invariant (List.replicate 512 0) [1, 2, 3] 1
    (by rw [List.length_replicate])

/-- C5: the MP4 matcher is conservative on malformed boxes — fewer than 12
bytes, a declared box size exceeding the available prefix or not a multiple
of 4, or bytes 4–7 not equal to `ftyp` all report no-match; and any loop
cursor position reachable under the guards (a multiple of 4 that is at least
8 and below the box size) keeps the 3-byte field comparison strictly inside
both the declared box size and the available prefix. -/
theorem mp4_sig_match_conservative (data : List Nat) (fuel : Nat) :
    (data.length < 12 → mp4_sig_match fuel data = some none) ∧
    (12 ≤ data.length →
      data.length < mp4_box_size data ∨ mp4_box_size data % 4 ≠ 0 →
      mp4_sig_match fuel data = some none) ∧
    (12 ≤ data.length →
      mp4_box_size data ≤ data.length →
      mp4_box_size data % 4 = 0 →
      (data.drop 4).take 4 ≠ [102, 116, 121, 112] →
      mp4_sig_match fuel data = some none) ∧
    (∀ st, 8 ≤ st → st % 4 = 0 →
      mp4_box_size data % 4 = 0 →
      mp4_box_size data ≤ data.length →
      st < mp4_box_size data →
      st + 3 < min (mp4_box_size data) data.length) := by
  refine ⟨fun h => mp4_short h, fun h1 h2 => ?_, fun h1 h2 h3 h4 => ?_,
    fun st h1 h2 h3 h4 h5 => ?_⟩
  · simp only [mp4_sig_match]
    rw [if_neg (by omega), if_pos h2]
  · simp only [mp4_sig_match]
    rw [if_neg (by omega),
      if_neg (fun hc => hc.elim (fun hlt => by omega) (fun hm => hm h3)),
      if_pos h4]
  · omega

theorem mp4_sig_match_conservative_witness :
    mp4_sig_match 0 [0, 0, 0] = some none ∧
    mp4_sig_match 0 [0, 0, 0, 13, 102, 116, 121, 112, 0, 0, 0, 0, 0] = some none ∧
    mp4_sig_match 0 [0, 0, 0, 12, 120, 116, 121, 112, 0, 0, 0, 0] = some none ∧
    8 + 3 < min (mp4_box_size [0, 0, 0, 16, 102, 116, 121, 112, 97, 97, 97, 97,
      97, 97, 97, 97]) 16 :=
  ⟨(mp4_sig_match_conservative [0, 0, 0] 0).1 (by decide),
   (mp4_sig_match_conservative [0, 0, 0, 13, 102, 116, 121, 112, 0, 0, 0, 0, 0] 0).2.1
     (by decide) (by decide),
   (mp4_sig_match_conservative [0, 0, 0, 12, 120, 116, 121, 112, 0, 0, 0, 0] 0).2.2.1
     (by decide) (by decide) (by decide) (by decide),
   by
    have := (mp4_sig_match_conservative [0, 0, 0, 16, 102, 116, 121, 112, 97, 97,
      97, 97, 97, 97, 97, 97] 0).2.2.2 8 (by decide) (by decide) (by decide)
      (by decide) (by decide)
    simpa using this⟩

/-- When the declared box size exceeds 12, the loop cursor value 12 makes the
source's `continue` re-enter the loop with `st` unchanged: no amount of fuel
produces a result. -/
theorem mp4_loop_stuck (data : List Nat) (box : Nat) (h : 12 < box) :
    ∀ fuel, mp4_loop data box fuel 12 = none := by
  intro fuel
  induction fuel with
  | zero => rfl
  | succ n ih =>
    simp only [mp4_loop, if_pos h, if_pos rfl]
    exact ih

/-- C1: refuted — `detect_content_type` does not terminate on every input.
On a well-formed 16-byte `ftyp` box whose brand fields do not start with
`mp4`, the MP4 scan reaches cursor 12 and the `continue` never advances it,
so the computation exhausts every fuel. -/
theorem detect_diverges_on_unmatched_ftyp (fuel : Nat) :
    detect_content_type fuel
      [0, 0, 0, 16, 102, 116, 121, 112, 97, 97, 97, 97, 97, 97, 97, 97] = none := by
  have h8 : ∀ f, mp4_loop
      [0, 0, 0, 16, 102, 116, 121, 112, 97, 97, 97, 97, 97, 97, 97, 97] 16 f 8 = none := by
    intro f
    cases f with
    | zero => rfl
    | succ n =>
      exact mp4_loop_stuck
        [0, 0, 0, 16, 102, 116, 121, 112, 97, 97, 97, 97, 97, 97, 97, 97] 16
        (by omega) n
  have hm : SniffSig.sig_match fuel SniffSig.mp4
      [0, 0, 0, 16, 102, 116, 121, 112, 97, 97, 97, 97, 97, 97, 97, 97] 0 = none :=
    h8 fuel
  have step : detect_content_type fuel
      [0, 0, 0, 16, 102, 116, 121, 112, 97, 97, 97, 97, 97, 97, 97, 97] =
      runSigs fuel [0, 0, 0, 16, 102, 116, 121, 112, 97, 97, 97, 97, 97, 97, 97, 97] 0
        (SniffSig.mp4 :: SNIFF_SIGNATURES.drop 39) := rfl
  rw [step, runSigs_stuck hm]

theorem detect_diverges_on_unmatched_ftyp_witness :
    detect_content_type 1000
      [0, 0, 0, 16, 102, 116, 121, 112, 97, 97, 97, 97, 97, 97, 97, 97] = none :=
  detect_diverges_on_unmatched_ftyp 1000

/-- Modelled from the spec: the intended brand scan of §4.4 — scan 4-byte
fields from offset 8 up to the declared box size, skipping (but advancing
past) the major-brand version field at offset 12.  The source's loop in
`MP4Sig::sig_match` fails to advance there; this definition follows the
spec's words so the divergence can be exhibited. -/
def mp4_scan_spec : Nat → List Nat → Nat → Nat → Option String
  | 0, _, _, _ => none
  | steps + 1, data, box_size, st =>
    if st < box_size then
      if st = 12 then mp4_scan_spec steps data box_size (st + 4)
      else if (data.drop st).take 3 = [109, 112, 52] then some "video/mp4"
      else mp4_scan_spec steps data box_size (st + 4)
    else none

/-- Modelled from the spec: `MP4Sig::sig_match` with the intended scan loop;
the step budget `box_size + 1` suffices since the cursor strictly increases. -/
def mp4_sig_match_spec (data : List Nat) : Option String :=
  if data.length < 12 then none
  else if data.length < mp4_box_size data ∨ mp4_box_size data % 4 ≠ 0 then none
  else if (data.drop 4).take 4 ≠ [102, 116, 121, 112] then none
  else mp4_scan_spec (mp4_box_size data + 1) data (mp4_box_size data) 8

/-- C2: refuted — on a well-formed 20-byte `ftyp` box whose first brand field
(offset 8) is `isom` and whose field at offset 16 is `mp42`, the spec's scan
returns `video/mp4`, but the code's loop reaches cursor 12 and never advances
(`continue` skips the increment), so `detect_content_type` never returns. -/
theorem mp4_late_brand_divergence :
    (∀ fuel, detect_content_type fuel
      [0, 0, 0, 20, 102, 116, 121, 112, 105, 115, 111, 109, 0, 0, 0, 0,
        109, 112, 52, 50] = none) ∧
    mp4_sig_match_spec
      [0, 0, 0, 20, 102, 116, 121, 112, 105, 115, 111, 109, 0, 0, 0, 0,
        109, 112, 52, 50] = some "video/mp4" := by
  constructor
  · intro fuel
    have h8 : ∀ f, mp4_loop
        [0, 0, 0, 20, 102, 116, 121, 112, 105, 115, 111, 109, 0, 0, 0, 0,
          109, 112, 52, 50] 20 f 8 = none := by
      intro f
      cases f with
      | zero => rfl
      | succ n =>
        exact mp4_loop_stuck
          [0, 0, 0, 20, 102, 116, 121, 112, 105, 115, 111, 109, 0, 0, 0, 0,
            109, 112, 52, 50] 20 (by omega) n
    have hm : SniffSig.sig_match fuel SniffSig.mp4
        [0, 0, 0, 20, 102, 116, 121, 112, 105, 115, 111, 109, 0, 0, 0, 0,
          109, 112, 52, 50] 0 = none := h8 fuel
    have step : detect_content_type fuel
        [0, 0, 0, 20, 102, 116, 121, 112, 105, 115, 111, 109, 0, 0, 0, 0,
          109, 112, 52, 50] =
        runSigs fuel [0, 0, 0, 20, 102, 116, 121, 112, 105, 115, 111, 109, 0, 0, 0, 0,
          109, 112, 52, 50] 0 (SniffSig.mp4 :: SNIFF_SIGNATURES.drop 39) := rfl
    rw [step, runSigs_stuck hm]
  · decide

theorem nat_land_zero (n : Nat) : Nat.land n 0 = 0 := Nat.and_zero n

theorem nat_land_254 : Nat.land 254 255 = 254 := by decide

theorem nat_land_255 : Nat.land 255 255 = 255 := by decide

theorem nat_land_60 : Nat.land 60 255 = 60 := by decide

theorem nat_land_63 : Nat.land 63 255 = 63 := by decide

theorem nat_land_120 : Nat.land 120 255 = 120 := by decide

theorem nat_land_109 : Nat.land 109 255 = 109 := by decide

theorem nat_land_108 : Nat.land 108 255 = 108 := by decide

theorem nat_land_63_223 : Nat.land 63 223 = 31 := by decide

/-- A masked entry matches when the lengths agree and the masked loop
succeeds. -/
theorem masked_match_true {mask pat : List Nat} {sw : Bool} {ct : String}
    {data : List Nat} {fnw : Nat}
    (hlen1 : pat.length = mask.length)
    (hlen2 : pat.length ≤ (if sw then data.drop fnw else data).length)
    (hloop : masked_loop pat mask (if sw then data.drop fnw else data) = true) :
    masked_sig_match mask pat sw ct data fnw = some ct := by
  simp only [masked_sig_match]
  rw [if_neg (fun hc => hc hlen1), if_neg (by omega), if_pos hloop]

/-- With a first byte that rules out the tag signatures, the XML declaration
and the `%` signatures, the table scan proceeds directly to the UTF BOM
entries (table position 20). -/
theorem skip_to_boms (fuel : Nat) (d0 : Nat) (ds : List Nat)
    (h60 : (d0 == 60) = false) (h37 : (d0 == 37) = false)
    (hl60 : (Nat.land d0 255 == 60) = false) :
    runSigs fuel (d0 :: ds) 0 SNIFF_SIGNATURES =
      runSigs fuel (d0 :: ds) 0 (SNIFF_SIGNATURES.drop 20) := by
  have hh : ∀ p ∈ htmlPats, html_sig_match p (d0 :: ds) 0 = none := by
    intro p hp
    fin_cases hp <;>
      exact html_none_of_loop (by simp [html_loop, html_byte, h60])
  have hxml : SniffSig.sig_match fuel
      (SniffSig.masked [255, 255, 255, 255, 255] [60, 63, 120, 109, 108] true
        "text/xml; charset=utf-8") (d0 :: ds) 0 = some none :=
    congrArg some (masked_none_head rfl hl60)
  have hpdf : SniffSig.sig_match fuel
      (SniffSig.exact [37, 80, 68, 70, 45] "application/pdf") (d0 :: ds) 0 =
      some none :=
    congrArg some (exact_none_of (by simp [startsWithBytes, h37]))
  have hps : SniffSig.sig_match fuel
      (SniffSig.exact [37, 33, 80, 83, 45, 65, 100, 111, 98, 101, 45]
        "application/postsript") (d0 :: ds) 0 = some none :=
    congrArg some (exact_none_of (by simp [startsWithBytes, h37]))
  have h3 : runSigs fuel (d0 :: ds) 0 SNIFF_REST =
      runSigs fuel (d0 :: ds) 0 (SNIFF_REST.drop 3) := by
    show runSigs fuel (d0 :: ds) 0
        (SniffSig.masked [255, 255, 255, 255, 255] [60, 63, 120, 109, 108] true
          "text/xml; charset=utf-8" ::
         SniffSig.exact [37, 80, 68, 70, 45] "application/pdf" ::
         SniffSig.exact [37, 33, 80, 83, 45, 65, 100, 111, 98, 101, 45]
          "application/postsript" :: SNIFF_REST.drop 3) =
      runSigs fuel (d0 :: ds) 0 (SNIFF_REST.drop 3)
    rw [runSigs_skip hxml, runSigs_skip hpdf, runSigs_skip hps]
  rw [show SNIFF_SIGNATURES = htmlPats.map SniffSig.html ++ SNIFF_REST from rfl,
    html_block_skip hh, h3]
  rfl

/-- C3: refuted as stated — a 2-byte input `FE FF` is NOT detected as
UTF-16BE text, because the masked BOM matcher first requires the data to be
at least as long as its 4-byte pattern; the input falls through to the
generic text rule instead. -/
theorem utf16be_bom_two_byte_counterexample :
    detect_content_type 1 [254, 255] = some "text/plain; charset=utf-8" ∧
    detect_content_type 1 [254, 255] ≠ some "text/plain; charset=utf-16be" := by
  decide

/-- C3 (amended): for every input of length at least 4 whose first two bytes
are `FE FF`, detection yields UTF-16BE plain text, and `FF FE` yields
UTF-16LE; the trailing two mask bytes are zero so bytes 2 and 3 never
constrain the match. -/
theorem utf16_bom_detected_of_len4 (data : List Nat) (fuel : Nat)
    (hlen : 4 ≤ data.length) :
    (data.getD 0 0 = 254 → data.getD 1 0 = 255 →
      detect_content_type fuel data = some "text/plain; charset=utf-16be") ∧
    (data.getD 0 0 = 255 → data.getD 1 0 = 254 →
      detect_content_type fuel data = some "text/plain; charset=utf-16le") := by
  rcases data with _ | ⟨a, _ | ⟨b, _ | ⟨c, _ | ⟨e, t⟩⟩⟩⟩ <;>
    simp only [List.length_nil, List.length_cons] at hlen <;> try omega
  constructor
  · intro h0 h1
    simp only [List.getD_cons_zero, List.getD_cons_succ] at h0 h1
    subst h0; subst h1
    show runSigs fuel (254 :: 255 :: c :: e :: t.take 508)
      (first_non_ws (254 :: 255 :: c :: e :: t.take 508)) SNIFF_SIGNATURES =
      some "text/plain; charset=utf-16be"
    rw [show first_non_ws (254 :: 255 :: c :: e :: t.take 508) = 0 from rfl,
      skip_to_boms fuel 254 (255 :: c :: e :: t.take 508) (by decide) (by decide)
        (by decide),
      show SNIFF_SIGNATURES.drop 20 =
        SniffSig.masked [255, 255, 0, 0] [254, 255, 0, 0] false
          "text/plain; charset=utf-16be" ::
        SniffSig.masked [255, 255, 0, 0] [255, 254, 0, 0] false
          "text/plain; charset=utf-16le" :: SNIFF_SIGNATURES.drop 22 from rfl]
    exact runSigs_hit (congrArg some (masked_match_true rfl (by simp)
      (by simp [masked_loop, nat_land_zero, nat_land_254, nat_land_255])))
  · intro h0 h1
    simp only [List.getD_cons_zero, List.getD_cons_succ] at h0 h1
    subst h0; subst h1
    show runSigs fuel (255 :: 254 :: c :: e :: t.take 508)
      (first_non_ws (255 :: 254 :: c :: e :: t.take 508)) SNIFF_SIGNATURES =
      some "text/plain; charset=utf-16le"
    have hbe : SniffSig.sig_match fuel
        (SniffSig.masked [255, 255, 0, 0] [254, 255, 0, 0] false
          "text/plain; charset=utf-16be")
        (255 :: 254 :: c :: e :: t.take 508) 0 = some none :=
      congrArg some (masked_none_head rfl (by decide))
    rw [show first_non_ws (255 :: 254 :: c :: e :: t.take 508) = 0 from rfl,
      skip_to_boms fuel 255 (254 :: c :: e :: t.take 508) (by decide) (by decide)
        (by decide),
      show SNIFF_SIGNATURES.drop 20 =
        SniffSig.masked [255, 255, 0, 0] [254, 255, 0, 0] false
          "text/plain; charset=utf-16be" ::
        SniffSig.masked [255, 255, 0, 0] [255, 254, 0, 0] false
          "text/plain; charset=utf-16le" :: SNIFF_SIGNATURES.drop 22 from rfl,
      runSigs_skip hbe]
    exact runSigs_hit (congrArg some (masked_match_true rfl (by simp)
      (by simp [masked_loop, nat_land_zero, nat_land_254, nat_land_255])))

theorem utf16_bom_detected_of_len4_witness :
    detect_content_type 7 [254, 255, 0, 65] = some "text/plain; charset=utf-16be" ∧
    detect_content_type 7 [255, 254, 65, 0] = some "text/plain; charset=utf-16le" :=
  ⟨(utf16_bom_detected_of_len4 [254, 255, 0, 65] 7 (by decide)).1 rfl rfl,
   (utf16_bom_detected_of_len4 [255, 254, 65, 0] 7 (by decide)).2 rfl rfl⟩

/-- C9: for every input matching no earlier table entry, the result is
text/plain exactly when no byte after the leading whitespace lies in the
binary-control set, and the octet-stream fallback exactly when one does; the
empty input yields text/plain and `[1,2,3]` yields octet-stream. -/
theorem text_fallback_characterization :
    (∀ (data : List Nat) (fuel : Nat),
      (∀ s ∈ SNIFF_SIGNATURES.dropLast,
        SniffSig.sig_match fuel s (data.take SNIFF_LEN)
          (first_non_ws (data.take SNIFF_LEN)) = some none) →
      (detect_content_type fuel data = some "text/plain; charset=utf-8" ↔
        ((data.take SNIFF_LEN).drop (first_non_ws (data.take SNIFF_LEN))).all
          (fun b => !isBinaryByte b) = true) ∧
      (detect_content_type fuel data = some "application/octet-stream" ↔
        ((data.take SNIFF_LEN).drop (first_non_ws (data.take SNIFF_LEN))).all
          (fun b => !isBinaryByte b) = false)) ∧
    (∀ fuel, detect_content_type fuel [] = some "text/plain; charset=utf-8") ∧
    (∀ fuel, detect_content_type fuel [1, 2, 3] = some "application/octet-stream") := by
  refine ⟨?_, fun fuel => rfl, fun fuel => rfl⟩
  intro data fuel hpre
  have hdetect : detect_content_type fuel data =
      runSigs fuel (data.take SNIFF_LEN) (first_non_ws (data.take SNIFF_LEN))
        [SniffSig.text] := by
    show runSigs fuel (data.take SNIFF_LEN) (first_non_ws (data.take SNIFF_LEN))
        SNIFF_SIGNATURES = _
    rw [show SNIFF_SIGNATURES = SNIFF_SIGNATURES.dropLast ++ [SniffSig.text] from rfl]
    exact runSigs_skip_all hpre
  cases hB : ((data.take SNIFF_LEN).drop (first_non_ws (data.take SNIFF_LEN))).all
      (fun b => !isBinaryByte b) with
  | true =>
    have htxt : SniffSig.sig_match fuel SniffSig.text (data.take SNIFF_LEN)
        (first_non_ws (data.take SNIFF_LEN)) =
        some (some "text/plain; charset=utf-8") :=
      congrArg some (by simp [text_sig_match, hB])
    have htp : detect_content_type fuel data = some "text/plain; charset=utf-8" := by
      rw [hdetect]
      exact runSigs_hit htxt
    exact ⟨⟨fun _ => rfl, fun _ => htp⟩,
      ⟨fun hoct => absurd (htp ▸ hoct) (by decide), fun hfalse => absurd hfalse (by decide)⟩⟩
  | false =>
    have htxt : SniffSig.sig_match fuel SniffSig.text (data.take SNIFF_LEN)
        (first_non_ws (data.take SNIFF_LEN)) = some none :=
      congrArg some (by simp [text_sig_match, hB])
    have hoctet : detect_content_type fuel data =
        some "application/octet-stream" := by
      rw [hdetect, runSigs_skip htxt]
      rfl
    exact ⟨⟨fun htp => absurd (hoctet ▸ htp) (by decide),
        fun htrue => absurd htrue (by decide)⟩,
      ⟨fun _ => rfl, fun _ => hoctet⟩⟩

theorem text_fallback_characterization_witness :
    detect_content_type 1 [65, 66] = some "text/plain; charset=utf-8" :=
  ((text_fallback_characterization.1 [65, 66] 1 (by decide)).1).mpr (by decide)

/-- C10: every input beginning with `%!PS-Adobe-` is detected as the literal
table string `application/postsript` (note the typo), and no input ever
produces the standard spelling `application/postscript`. -/
theorem postscript_typo_detection :
    (∀ (rest : List Nat) (fuel : Nat),
      detect_content_type fuel
        ([37, 33, 80, 83, 45, 65, 100, 111, 98, 101, 45] ++ rest) =
        some "application/postsript") ∧
    (∀ (data : List Nat) (fuel : Nat),
      detect_content_type fuel data ≠ some "application/postscript") := by
  constructor
  · intro rest fuel
    show runSigs fuel
      (37 :: 33 :: 80 :: 83 :: 45 :: 65 :: 100 :: 111 :: 98 :: 101 :: 45 ::
        rest.take 501)
      (first_non_ws (37 :: 33 :: 80 :: 83 :: 45 :: 65 :: 100 :: 111 :: 98 :: 101 ::
        45 :: rest.take 501)) SNIFF_SIGNATURES = some "application/postsript"
    rw [show first_non_ws (37 :: 33 :: 80 :: 83 :: 45 :: 65 :: 100 :: 111 :: 98 ::
      101 :: 45 :: rest.take 501) = 0 from rfl]
    have hh : ∀ p ∈ htmlPats, html_sig_match p
        (37 :: 33 :: 80 :: 83 :: 45 :: 65 :: 100 :: 111 :: 98 :: 101 :: 45 ::
          rest.take 501) 0 = none := by
      intro p hp
      fin_cases hp <;> exact html_none_of_loop (by simp [html_loop, html_byte])
    have hxml : SniffSig.sig_match fuel
        (SniffSig.masked [255, 255, 255, 255, 255] [60, 63, 120, 109, 108] true
          "text/xml; charset=utf-8")
        (37 :: 33 :: 80 :: 83 :: 45 :: 65 :: 100 :: 111 :: 98 :: 101 :: 45 ::
          rest.take 501) 0 = some none :=
      congrArg some (masked_none_head rfl (by decide))
    have hpdf : SniffSig.sig_match fuel
        (SniffSig.exact [37, 80, 68, 70, 45] "application/pdf")
        (37 :: 33 :: 80 :: 83 :: 45 :: 65 :: 100 :: 111 :: 98 :: 101 :: 45 ::
          rest.take 501) 0 = some none :=
      congrArg some (exact_none_of (by simp [startsWithBytes]))
    have hst : startsWithBytes
        (37 :: 33 :: 80 :: 83 :: 45 :: 65 :: 100 :: 111 :: 98 :: 101 :: 45 ::
          rest.take 501) [37, 33, 80, 83, 45, 65, 100, 111, 98, 101, 45] = true :=
      startsWithBytes_append_self [37, 33, 80, 83, 45, 65, 100, 111, 98, 101, 45]
        (rest.take 501)
    have hps : SniffSig.sig_match fuel
        (SniffSig.exact [37, 33, 80, 83, 45, 65, 100, 111, 98, 101, 45]
          "application/postsript")
        (37 :: 33 :: 80 :: 83 :: 45 :: 65 :: 100 :: 111 :: 98 :: 101 :: 45 ::
          rest.take 501) 0 = some (some "application/postsript") := by
      simp only [SniffSig.sig_match, exact_sig_match]
      rw [if_pos hst]
    rw [show SNIFF_SIGNATURES = htmlPats.map SniffSig.html ++ SNIFF_REST from rfl,
      html_block_skip hh,
      show SNIFF_REST =
        SniffSig.masked [255, 255, 255, 255, 255] [60, 63, 120, 109, 108] true
          "text/xml; charset=utf-8" ::
        SniffSig.exact [37, 80, 68, 70, 45] "application/pdf" ::
        SniffSig.exact [37, 33, 80, 83, 45, 65, 100, 111, 98, 101, 45]
          "application/postsript" :: SNIFF_REST.drop 3 from rfl,
      runSigs_skip hxml, runSigs_skip hpdf]
    exact runSigs_hit hps
  · intro data fuel hps
    rcases runSigs_output hps with h1 | ⟨s, hs, hct⟩
    · exact absurd h1 (by decide)
    · have hall : ∀ s ∈ SNIFF_SIGNATURES, s.ctOf ≠ "application/postscript" := by
        decide
      exact hall s hs hct.symm

theorem postscript_typo_detection_witness :
    detect_content_type 0 ([37, 33, 80, 83, 45, 65, 100, 111, 98, 101, 45] ++ []) =
      some "application/postsript" :=
  postscript_typo_detection.1 [] 0

/-- C4: dispatch semantics — the octet-stream fallback is returned exactly
when every table entry reports no-match, and whenever the entries before some
entry all report no-match and that entry matches, its content type is the
result (earliest matching entry wins; matcher failures are ordinary
no-matches that move the scan to the next entry). -/
theorem detect_first_match_semantics (data : List Nat) (fuel : Nat) :
    ((detect_content_type fuel data = some "application/octet-stream") ↔
      ∀ s ∈ SNIFF_SIGNATURES, SniffSig.sig_match fuel s (data.take SNIFF_LEN)
        (first_non_ws (data.take SNIFF_LEN)) = some none) ∧
    (∀ (pre : List SniffSig) (s : SniffSig) (post : List SniffSig) (ct : String),
      SNIFF_SIGNATURES = pre ++ s :: post →
      (∀ t ∈ pre, SniffSig.sig_match fuel t (data.take SNIFF_LEN)
        (first_non_ws (data.take SNIFF_LEN)) = some none) →
      SniffSig.sig_match fuel s (data.take SNIFF_LEN)
        (first_non_ws (data.take SNIFF_LEN)) = some (some ct) →
      detect_content_type fuel data = some ct) := by
  constructor
  · have hct : ∀ s ∈ SNIFF_SIGNATURES, s.ctOf ≠ "application/octet-stream" := by
      decide
    show (runSigs fuel (data.take SNIFF_LEN) (first_non_ws (data.take SNIFF_LEN))
      SNIFF_SIGNATURES = some "application/octet-stream") ↔ _
    exact runSigs_octet_iff hct
  · intro pre s post ct htab hpre hs
    show runSigs fuel (data.take SNIFF_LEN) (first_non_ws (data.take SNIFF_LEN))
      SNIFF_SIGNATURES = some ct
    rw [htab, runSigs_skip_all hpre]
    exact runSigs_hit hs

theorem detect_first_match_semantics_witness :
    detect_content_type 1 [1, 2, 3] = some "application/octet-stream" ∧
    detect_content_type 1 [37, 80, 68, 70, 45] = some "application/pdf" :=
  ⟨(detect_first_match_semantics [1, 2, 3] 1).1.mpr (by decide),
   (detect_first_match_semantics [37, 80, 68, 70, 45] 1).2
     (SNIFF_SIGNATURES.take 18)
     (SniffSig.exact [37, 80, 68, 70, 45] "application/pdf")
     (SNIFF_SIGNATURES.drop 19) "application/pdf" (by decide) (by decide) (by decide)⟩

/-- A data byte matching a tag pattern byte "in any letter case": equal to
the pattern byte, or — when the pattern byte is an uppercase ASCII letter —
equal to its lowercase form. -/
def caseVar (b db : Nat) : Prop :=
  db = b ∨ (65 ≤ b ∧ b ≤ 90 ∧ db = b + 32)

instance (b db : Nat) : Decidable (caseVar b db) := by
  unfold caseVar
  infer_instance

theorem html_byte_of_caseVar {b db : Nat} (h : caseVar b db) :
    html_byte b db = true := by
  rcases h with rfl | ⟨h1, h2, rfl⟩
  · simp only [html_byte]
    split
    · rename_i hc
      simp only [Bool.and_eq_true, decide_eq_true_eq] at hc
      obtain ⟨hb1, hb2⟩ := hc
      interval_cases db <;> decide
    · simp
  · have hc : (65 ≤ b && b ≤ 90) = true := by
      simp only [Bool.and_eq_true, decide_eq_true_eq]
      exact ⟨h1, h2⟩
    simp only [html_byte, hc, if_true]
    interval_cases b <;> decide

theorem html_loop_of_caseVar : ∀ (h t : List Nat),
    h.length ≤ t.length →
    (∀ i, i < h.length → caseVar (h.getD i 0) (t.getD i 0)) →
    html_loop h t = true := by
  intro h
  induction h with
  | nil => intro t _ _; rfl
  | cons b bs ih =>
    intro t hlen hcv
    cases t with
    | nil => simp at hlen
    | cons db ds =>
      simp only [html_loop, Bool.and_eq_true]
      refine ⟨html_byte_of_caseVar (hcv 0 (by simp)), ih ds ?_ ?_⟩
      · simpa using hlen
      · intro i hi
        have := hcv (i + 1) (by simpa using Nat.succ_lt_succ hi)
        simpa using this

/-- The HTML matcher succeeds on any case variant of a tag pattern that lies
inside the data and is followed by a tag-terminating byte. -/
theorem html_sig_match_of_caseVar (h d : List Nat) (f : Nat)
    (hlen : f + h.length + 1 ≤ d.length)
    (hcv : ∀ i, i < h.length → caseVar (h.getD i 0) ((d.drop f).getD i 0))
    (htt : is_tt ((d.drop f).getD h.length 0) = true) :
    html_sig_match h d f = some "text/html; charset=utf-8" := by
  have hdl : h.length + 1 ≤ (d.drop f).length := by
    rw [List.length_drop]
    omega
  simp only [html_sig_match]
  rw [if_neg (by omega),
    if_pos (html_loop_of_caseVar h (d.drop f) (by omega) hcv), if_pos htt]

/-- C6: HTML tag detection is ASCII case-insensitive and requires a
tag-terminating byte: any case variant of a table tag opener inside the
sniffed window, followed by space or `>`, yields text/html; in particular
`<html>`, `<HTML>` and `<HtMl>` all do, while `<htmlx>` does not match as
HTML and falls to the text rule. -/
theorem html_tag_case_insensitive_detection :
    (∀ (data : List Nat) (fuel : Nat) (h : List Nat),
      h ∈ htmlPats →
      first_non_ws (data.take SNIFF_LEN) + h.length + 1 ≤
        (data.take SNIFF_LEN).length →
      (∀ i, i < h.length → caseVar (h.getD i 0)
        (((data.take SNIFF_LEN).drop (first_non_ws (data.take SNIFF_LEN))).getD
          i 0)) →
      is_tt (((data.take SNIFF_LEN).drop (first_non_ws (data.take SNIFF_LEN))).getD
        h.length 0) = true →
      detect_content_type fuel data = some "text/html; charset=utf-8") ∧
    (∀ fuel, detect_content_type fuel [60, 104, 116, 109, 108, 62] =
      some "text/html; charset=utf-8") ∧
    (∀ fuel, detect_content_type fuel [60, 72, 84, 77, 76, 62] =
      some "text/html; charset=utf-8") ∧
    (∀ fuel, detect_content_type fuel [60, 72, 116, 77, 108, 62] =
      some "text/html; charset=utf-8") ∧
    (∀ fuel, detect_content_type fuel [60, 104, 116, 109, 108, 120, 62] =
      some "text/plain; charset=utf-8") := by
  refine ⟨?_, fun fuel => rfl, fun fuel => rfl, fun fuel => rfl, fun fuel => rfl⟩
  intro data fuel h hmem hlen hcv htt
  have hmatch : html_sig_match h (data.take SNIFF_LEN)
      (first_non_ws (data.take SNIFF_LEN)) = some "text/html; charset=utf-8" :=
    html_sig_match_of_caseVar h (data.take SNIFF_LEN)
      (first_non_ws (data.take SNIFF_LEN)) hlen hcv htt
  show runSigs fuel (data.take SNIFF_LEN) (first_non_ws (data.take SNIFF_LEN))
    SNIFF_SIGNATURES = some "text/html; charset=utf-8"
  rw [show SNIFF_SIGNATURES = htmlPats.map SniffSig.html ++ SNIFF_REST from rfl]
  exact html_block_hit ⟨h, hmem, by simp [hmatch]⟩

theorem html_tag_case_insensitive_detection_witness :
    detect_content_type 0 [60, 72, 84, 77, 76, 32] = some "text/html; charset=utf-8" :=
  html_tag_case_insensitive_detection.1 [60, 72, 84, 77, 76, 32] 0
    [60, 72, 84, 77, 76] (by decide) (by decide) (by decide) (by decide)

/-- The three UTF BOM entries of the table (positions 20–22). -/
def bom_entries : List SniffSig :=
  [.masked [255, 255, 0, 0] [254, 255, 0, 0] false "text/plain; charset=utf-16be",
   .masked [255, 255, 0, 0] [255, 254, 0, 0] false "text/plain; charset=utf-16le",
   .masked [255, 255, 255, 0] [239, 187, 191, 0] false "text/plain; charset=utf-8"]

/-- C7: leading whitespace (within the 512-byte sniff window) does not
prevent detection for whitespace-skipping signatures — any HTML tag match of
the remainder still yields text/html, and a `<?xml` remainder still yields
text/xml — while the BOM entries, which do not skip whitespace, report
no-match on any input whose first byte is whitespace. -/
theorem whitespace_skip_behavior :
    (∀ (ws rest : List Nat) (fuel : Nat) (h : List Nat),
      (∀ b ∈ ws, is_ws b = true) →
      ws.length + rest.length ≤ 512 →
      h ∈ htmlPats →
      html_sig_match h rest (first_non_ws rest) ≠ none →
      detect_content_type fuel (ws ++ rest) = some "text/html; charset=utf-8") ∧
    (∀ (ws tail : List Nat) (fuel : Nat),
      (∀ b ∈ ws, is_ws b = true) →
      ws.length + 5 + tail.length ≤ 512 →
      detect_content_type fuel (ws ++ 60 :: 63 :: 120 :: 109 :: 108 :: tail) =
        some "text/xml; charset=utf-8") ∧
    (∀ (d0 : Nat) (ds : List Nat) (f fuel : Nat),
      is_ws d0 = true →
      ∀ s ∈ bom_entries, SniffSig.sig_match fuel s (d0 :: ds) f = some none) ∧
    (∀ s ∈ bom_entries, s ∈ SNIFF_SIGNATURES) := by
  refine ⟨?_, ?_, ?_, by decide⟩
  · intro ws rest fuel h hws hlen hmem hne
    have htake : (ws ++ rest).take SNIFF_LEN = ws ++ rest :=
      List.take_of_length_le (by simp only [List.length_append, SNIFF_LEN]; omega)
    have hfnw : first_non_ws (ws ++ rest) = ws.length + first_non_ws rest :=
      first_non_ws_append rest hws
    show runSigs fuel ((ws ++ rest).take SNIFF_LEN)
      (first_non_ws ((ws ++ rest).take SNIFF_LEN)) SNIFF_SIGNATURES =
      some "text/html; charset=utf-8"
    rw [htake, hfnw,
      show SNIFF_SIGNATURES = htmlPats.map SniffSig.html ++ SNIFF_REST from rfl]
    refine html_block_hit ⟨h, hmem, ?_⟩
    rw [html_shift]
    exact hne
  · intro ws tail fuel hws hlen
    have htake : (ws ++ 60 :: 63 :: 120 :: 109 :: 108 :: tail).take SNIFF_LEN =
        ws ++ 60 :: 63 :: 120 :: 109 :: 108 :: tail :=
      List.take_of_length_le
        (by simp only [List.length_append, List.length_cons, SNIFF_LEN]; omega)
    have hfnw : first_non_ws (ws ++ 60 :: 63 :: 120 :: 109 :: 108 :: tail) =
        ws.length + first_non_ws (60 :: 63 :: 120 :: 109 :: 108 :: tail) :=
      first_non_ws_append _ hws
    have hdrop : (ws ++ 60 :: 63 :: 120 :: 109 :: 108 :: tail).drop
        (ws.length + first_non_ws (60 :: 63 :: 120 :: 109 :: 108 :: tail)) =
        60 :: 63 :: 120 :: 109 :: 108 :: tail := by
      rw [List.drop_append,
        show first_non_ws (60 :: 63 :: 120 :: 109 :: 108 :: tail) = 0 from rfl,
        List.drop_zero]
    have hh : ∀ p ∈ htmlPats, html_sig_match p
        (ws ++ 60 :: 63 :: 120 :: 109 :: 108 :: tail)
        (ws.length + first_non_ws (60 :: 63 :: 120 :: 109 :: 108 :: tail)) =
          none := by
      intro p hp
      rw [html_shift]
      fin_cases hp <;>
        exact html_none_of_loop (by simp [html_loop, html_byte, nat_land_63_223])
    have hxml : SniffSig.sig_match fuel
        (SniffSig.masked [255, 255, 255, 255, 255] [60, 63, 120, 109, 108] true
          "text/xml; charset=utf-8")
        (ws ++ 60 :: 63 :: 120 :: 109 :: 108 :: tail)
        (ws.length + first_non_ws (60 :: 63 :: 120 :: 109 :: 108 :: tail)) =
        some (some "text/xml; charset=utf-8") := by
      refine congrArg some (masked_match_true rfl ?_ ?_)
      · show (5 : Nat) ≤ ((ws ++ 60 :: 63 :: 120 :: 109 :: 108 :: tail).drop
          (ws.length + first_non_ws (60 :: 63 :: 120 :: 109 :: 108 :: tail))).length
        rw [hdrop]
        simp only [List.length_cons]
        omega
      · show masked_loop [60, 63, 120, 109, 108] [255, 255, 255, 255, 255]
          ((ws ++ 60 :: 63 :: 120 :: 109 :: 108 :: tail).drop
            (ws.length + first_non_ws (60 :: 63 :: 120 :: 109 :: 108 :: tail))) = true
        rw [hdrop]
        simp [masked_loop, nat_land_60, nat_land_63, nat_land_120, nat_land_109,
          nat_land_108]
    show runSigs fuel ((ws ++ 60 :: 63 :: 120 :: 109 :: 108 :: tail).take SNIFF_LEN)
      (first_non_ws ((ws ++ 60 :: 63 :: 120 :: 109 :: 108 :: tail).take SNIFF_LEN))
      SNIFF_SIGNATURES = some "text/xml; charset=utf-8"
    rw [htake, hfnw,
      show SNIFF_SIGNATURES = htmlPats.map SniffSig.html ++ SNIFF_REST from rfl,
      html_block_skip hh,
      show SNIFF_REST =
        SniffSig.masked [255, 255, 255, 255, 255] [60, 63, 120, 109, 108] true
          "text/xml; charset=utf-8" :: SNIFF_REST.drop 1 from rfl]
    exact runSigs_hit hxml
  · intro d0 ds f fuel hws s hs
    have hd : (((d0 = 9 ∨ d0 = 10) ∨ d0 = 12) ∨ d0 = 13) ∨ d0 = 32 := by
      simpa [is_ws] using hws
    fin_cases hs <;>
      rcases hd with (((rfl | rfl) | rfl) | rfl) | rfl <;>
      exact congrArg some (masked_none_head rfl (by decide))

theorem whitespace_skip_behavior_witness :
    detect_content_type 0 ([32] ++ [60, 104, 116, 109, 108, 62]) =
      some "text/html; charset=utf-8" ∧
    detect_content_type 0 ([9] ++ 60 :: 63 :: 120 :: 109 :: 108 :: []) =
      some "text/xml; charset=utf-8" ∧
    SniffSig.sig_match 0
      (SniffSig.masked [255, 255, 0, 0] [254, 255, 0, 0] false
        "text/plain; charset=utf-16be") (32 :: [254, 255, 0, 0]) 0 = some none ∧
    SniffSig.masked [255, 255, 0, 0] [254, 255, 0, 0] false
      "text/plain; charset=utf-16be" ∈ SNIFF_SIGNATURES :=
  ⟨whitespace_skip_behavior.1 [32] [60, 104, 116, 109, 108, 62] 0
     [60, 72, 84, 77, 76] (by decide) (by decide) (by decide) (by decide),
   whitespace_skip_behavior.2.1 [9] [] 0 (by decide) (by decide),
   whitespace_skip_behavior.2.2.1 32 [254, 255, 0, 0] 0 0 (by decide)
     (SniffSig.masked [255, 255, 0, 0] [254, 255, 0, 0] false
       "text/plain; charset=utf-16be") (by decide),
   whitespace_skip_behavior.2.2.2
     (SniffSig.masked [255, 255, 0, 0] [254, 255, 0, 0] false
       "text/plain; charset=utf-16be") (by decide)⟩
